import Mathlib

/-!
Verification development for the Fashion-project repository.

The Python sources are shallowly embedded as Lean definitions:

* `app.py` — keyword/eco-score CSV loading (`load_keywords`,
  `load_ecoscores`), the two-tier eco-score matcher
  (`find_ecoscore_rows`), and the dashboard trend fetch
  (`pull_interest_over_time`, here `pull_interest_over_time_app`).
* `scripts/pull-trends.py` — the batch extraction script
  (`pull_interest_over_time_batch`, `batch_main`).
* `backend/main.py` — the FastAPI layer (`get_unique_keywords`,
  `calculate_trend_direction`, `get_eco_score`, `get_trends`,
  `get_trends_summary`, `load_data`, `reload_data`).

Modelling conventions:

* pandas `DataFrame`s are lists of rows; a boolean-mask row selection
  (OR of per-column comparisons over the text columns, then `df[mask]`)
  is embedded as a `List.filter` with a row predicate that is true when
  some text-typed column matches — the standard row-level reading of an
  OR-of-column-masks selection.
* `pandas.Series.str.contains` is embedded as case-folded contiguous
  substring containment (`List.IsInfix` on the character lists); regex
  metacharacter behaviour of pandas is out of scope.
* Python `str.strip` / `str.lower` are embedded character-wise
  (`pyStrip`, `pyLower`); only ASCII-level case folding is modelled.
* Numeric trend scores are rationals (`ℚ`); records in the trend cache
  carry numeric scores (the extraction script coerces to numeric before
  writing), so a missing-score case is not modelled.
* A provider call that may raise is embedded by passing the provider's
  single response — either a raised exception (`Except.error`) or a
  returned frame (`Except.ok`) — to the fetcher; each fetch function
  consumes exactly one response, which is the no-retry structure of the
  straight-line source.
* HTTP error responses (`HTTPException`) are `Except.error` with the
  status code.
-/

namespace FashionProject

/-- Python `str.strip` on a character list: drop whitespace from both
ends. -/
def pyStripL (l : List Char) : List Char :=
  ((l.dropWhile Char.isWhitespace).reverse.dropWhile Char.isWhitespace).reverse

/-- Python `str.strip` on strings. -/
def pyStrip (s : String) : String := ⟨pyStripL s.data⟩

/-- Python `str.lower` (ASCII case folding). -/
def pyLower (s : String) : String := ⟨s.data.map Char.toLower⟩

/-! ## Eco-score table and matcher (`app.py`) -/

/-- An eco-score table after CSV parsing: `isText c = true` when column
`c` has pandas dtype `object` (free text); `rows` hold the cell
contents, each row aligned with `isText`. -/
structure EcoTable where
  isText : List Bool
  rows : List (List String)
deriving DecidableEq

/-- Text normalisation applied by `load_ecoscores`: every cell of every
text (`object`) column is stripped. -/
def load_ecoscores_normalize (eco : EcoTable) : EcoTable :=
  { isText := eco.isText,
    rows := eco.rows.map (fun r =>
      List.zipWith (fun b c => if b then pyStrip c else c) eco.isText r) }

/-- One cell of a text column passes the tier-1 test:
`eco_df[c].astype(str).str.lower() == kw`. -/
def cellExact (cell kw : String) : Bool := pyLower cell == kw

/-- One cell of a text column passes the tier-2 test:
`eco_df[c].astype(str).str.lower().str.contains(kw, na=False)`,
embedded as substring containment. -/
def cellContains (cell kw : String) : Bool :=
  decide (kw.data <:+: (pyLower cell).data)

/-- A row is selected by the tier-1 mask: some text-typed column equals
the normalised keyword. -/
def rowExact (isText : List Bool) (row : List String) (kw : String) : Bool :=
  (isText.zip row).any (fun p => p.1 && cellExact p.2 kw)

/-- A row is selected by the tier-2 mask: some text-typed column
contains the normalised keyword. -/
def rowContains (isText : List Bool) (row : List String) (kw : String) : Bool :=
  (isText.zip row).any (fun p => p.1 && cellContains p.2 kw)

/-- `find_ecoscore_rows` from `app.py`: strip and lower-case the
keyword; return the tier-1 (exact) rows tagged `"exact"` when any
exist, otherwise the tier-2 (contains) rows tagged `"contains"` when
any exist, otherwise nothing.  The early return for a table with no
text columns mirrors `if not text_cols`. -/
def find_ecoscore_rows (eco : EcoTable) (keyword : String) :
    List (List String × String) :=
  let kw := pyLower (pyStrip keyword)
  if !(eco.isText.any id) then []
  else
    let exact := eco.rows.filter (fun r => rowExact eco.isText r kw)
    if !exact.isEmpty then exact.map (fun r => (r, "exact"))
    else
      let contains := eco.rows.filter (fun r => rowContains eco.isText r kw)
      if !contains.isEmpty then contains.map (fun r => (r, "contains"))
      else []

/-! ## Keyword loader (`app.py` / `scripts/pull-trends.py`, identical) -/

/-- `drop_duplicates(subset=["keyword"])` with pandas' default
`keep="first"`: keep a row when its keyword was not seen before. -/
def dedupKeywordRows (seen : List String) :
    List (String × String) → List (String × String)
  | [] => []
  | p :: rest =>
      if p.2 ∈ seen then dedupKeywordRows seen rest
      else p :: dedupKeywordRows (p.2 :: seen) rest

/-- `load_keywords`: rows are (category, keyword) pairs; the keyword is
stripped, blank keywords are dropped, and duplicate keywords are
dropped keeping the first occurrence.  (`dropna` acts on missing
values, which string-valued cells do not model.) -/
def load_keywords (rows : List (String × String)) : List (String × String) :=
  dedupKeywordRows []
    ((rows.map (fun p => (p.1, pyStrip p.2))).filter (fun p => !(p.2 == "")))

/-! ## Trend data model and API helpers (`backend/main.py`) -/

/-- One record of `data/trends_cache.json`. -/
structure TrendRecord where
  keyword : String
  date : String
  trend_score : ℚ
  category : String
deriving DecidableEq

/-- `get_unique_keywords`: `sorted(list(set(...)))` over the keywords of
the loaded records. -/
def get_unique_keywords (trends_data : List TrendRecord) : List String :=
  ((trends_data.map (fun t => t.keyword)).dedup).mergeSort
    (fun a b => decide (a ≤ b))

/-- `calculate_trend_direction`: compare last-minus-first against the
fixed threshold 5.  (With at least two scores the `getD` defaults are
never used.) -/
def calculate_trend_direction (scores : List ℚ) : String :=
  if scores.length < 2 then "stable"
  else
    let trend_change := scores.getLast?.getD 0 - scores.head?.getD 0
    if trend_change > 5 then "up"
    else if trend_change < -5 then "down"
    else "stable"

/-- `get_eco_score`: the placeholder always returns `None`. -/
def get_eco_score (_keyword : String) : Option Int := none

/-- A `/trends` response record: a cache record enriched with
`eco_score` and `brand` fields. -/
structure EnrichedRecord where
  keyword : String
  date : String
  trend_score : ℚ
  category : String
  eco_score : Option Int
  brand : String
deriving DecidableEq

/-- `brand if brand else "Generic"`: Python truthiness sends both `None`
and the empty string to `"Generic"`. -/
def brandOrGeneric : Option String → String
  | none => "Generic"
  | some b => if b == "" then "Generic" else b

/-- `GET /trends`: filter the cache case-insensitively by keyword; 404
when nothing matches, otherwise every matching record enriched with the
(placeholder) eco-score and the requested brand. -/
def get_trends (trends_data : List TrendRecord) (keyword : String)
    (brand : Option String) : Except Nat (List EnrichedRecord) :=
  let filtered := trends_data.filter
    (fun t => pyLower t.keyword == pyLower keyword)
  if filtered.isEmpty then Except.error 404
  else
    let eco_score := get_eco_score keyword
    Except.ok (filtered.map (fun r =>
      { keyword := r.keyword, date := r.date, trend_score := r.trend_score,
        category := r.category, eco_score := eco_score,
        brand := brandOrGeneric brand }))

/-! ## Summary endpoint (`backend/main.py`) -/

/-- Python `int()` on a rational: truncation toward zero. -/
def truncQ (x : ℚ) : ℤ := if 0 ≤ x then ⌊x⌋ else ⌈x⌉

/-- Python `round` to an integer: ideal half-to-even rounding (binary
floating-point artefacts of CPython are out of scope). -/
def pyRound (x : ℚ) : ℤ :=
  if x - ⌊x⌋ = 1 / 2 then (if ⌊x⌋ % 2 == 0 then ⌊x⌋ else ⌊x⌋ + 1)
  else round x

/-- Python `round(x, 1)`. -/
def pyRound1 (x : ℚ) : ℚ := (pyRound (x * 10) : ℚ) / 10

/-- The hardcoded placeholder brand list of `backend/main.py`. -/
def BRANDS : List String := ["Patagonia", "Everlane", "Reformation"]

/-- The per-brand metrics object built by `GET /trends/summary`. -/
structure BrandMetrics where
  average_trend : ℚ
  current_trend : ℤ
  average_eco : ℚ
  current_eco : ℤ
  trend_direction : String
  data_points : ℕ
deriving DecidableEq

/-- The metrics computed once per keyword inside `get_trends_summary`
(the same object is assigned to every brand). -/
def computeBrandMetrics (keyword_data : List TrendRecord)
    (eco_score : ℤ) : BrandMetrics :=
  let scores := keyword_data.map (fun t => t.trend_score)
  { average_trend := pyRound1 (scores.sum / (scores.length : ℚ)),
    current_trend := truncQ (scores.getLast?.getD 0),
    average_eco := (eco_score : ℚ),
    current_eco := eco_score,
    trend_direction := calculate_trend_direction scores,
    data_points := keyword_data.length }

/-- `GET /trends/summary`: for each unique keyword (case-sensitive
filter here), an association list from brand name to metrics; an empty
association list mirrors the `continue` after `summary[keyword] = {}`. -/
def get_trends_summary (trends_data : List TrendRecord) :
    List (String × List (String × BrandMetrics)) :=
  (get_unique_keywords trends_data).map (fun kw =>
    let keyword_data := trends_data.filter (fun t => t.keyword == kw)
    if keyword_data.isEmpty then (kw, [])
    else
      let eco_score : ℤ := (get_eco_score kw).getD 5
      (kw, BRANDS.map (fun b => (b, computeBrandMetrics keyword_data eco_score))))

/-! ## Load / reload (`backend/main.py`) -/

/-- `load_data`: when the cache file exists its parsed contents replace
the in-memory table; when it does not exist only a warning is printed
and the table is left as it was. -/
def load_data (file : Option (List TrendRecord))
    (trends_data : List TrendRecord) : List TrendRecord :=
  match file with
  | some parsed => parsed
  | none => trends_data

/-- The JSON body returned by `POST /reload`. -/
structure ReloadResponse where
  status : String
  message : String
  trends_count : ℕ
  keywords_count : ℕ
deriving DecidableEq

/-- `POST /reload`: run `load_data` and report the resulting counts;
the status is unconditionally `"success"`. -/
def reload_data (file : Option (List TrendRecord))
    (trends_data : List TrendRecord) : List TrendRecord × ReloadResponse :=
  let new := load_data file trends_data
  (new, { status := "success", message := "Data reloaded successfully",
          trends_count := new.length,
          keywords_count := (get_unique_keywords new).length })

/-! ## Trend fetchers (`scripts/pull-trends.py` and `app.py`) -/

/-- One row of the provider's interest-over-time frame (after the
`isPartial` column is dropped). -/
structure RawPoint where
  date : String
  score : ℚ
deriving DecidableEq

/-- A normalised `(keyword, date, trend_score)` triple. -/
structure TrendPoint where
  keyword : String
  date : String
  trend_score : ℚ
deriving DecidableEq

/-- The normalisation shared by both fetchers: stamp the keyword and
rename the score column. -/
def normalizePoints (keyword : String) (pts : List RawPoint) :
    List TrendPoint :=
  pts.map (fun p => { keyword := keyword, date := p.date, trend_score := p.score })

/-- `pull_interest_over_time` from `scripts/pull-trends.py`: the whole
body is wrapped in `try/except`, so a raised provider exception and an
empty provider frame both yield an empty result. -/
def pull_interest_over_time_batch (resp : Except String (List RawPoint))
    (keyword : String) : List TrendPoint :=
  match resp with
  | Except.error _ => []
  | Except.ok pts => if pts.isEmpty then [] else normalizePoints keyword pts

/-- `pull_interest_over_time` from `app.py`: no `try/except` — an empty
provider frame yields an empty result, but a raised provider exception
propagates to the caller. -/
def pull_interest_over_time_app (resp : Except String (List RawPoint))
    (keyword : String) : Except String (List TrendPoint) :=
  match resp with
  | Except.error e => Except.error e
  | Except.ok pts =>
      Except.ok (if pts.isEmpty then [] else normalizePoints keyword pts)

/-- The batch script stamps the row's category onto each record. -/
def addCategory (category : String) (pts : List TrendPoint) :
    List TrendRecord :=
  pts.map (fun p =>
    { keyword := p.keyword, date := p.date, trend_score := p.trend_score,
      category := category })

/-- The keyword loop of `main()` in `scripts/pull-trends.py`: rows are
(category, keyword) pairs — each keyword is fetched once (`oracle`
gives the provider's response for it), non-empty results are extended
onto the accumulator, and the loop always proceeds to the next
keyword. -/
def batch_main (oracle : String → Except String (List RawPoint)) :
    List (String × String) → List TrendRecord
  | [] => []
  | (category, keyword) :: rest =>
      let trend_data := pull_interest_over_time_batch (oracle keyword) keyword
      (if trend_data.isEmpty then [] else addCategory category trend_data)
        ++ batch_main oracle rest

/-! ## Helper lemmas -/

/-- With no text-typed column, no row passes either mask. -/
theorem zipAny_false_of_noText (isText : List Bool) (row : List String)
    (f : String → Bool) (h : isText.any id = false) :
    ((isText.zip row).any fun p => p.1 && f p.2) = false := by
  rw [List.any_eq_false]
  rintro ⟨a, b⟩ hp
  have ha : a ∈ isText := (List.of_mem_zip hp).1
  have := List.any_eq_false.mp h a ha
  simp only [id_eq] at this
  simp [this]

/-- Dropping a prefix whose characters all satisfy the predicate. -/
theorem dropWhile_append_of_forall {p : Char → Bool} (w l : List Char)
    (h : ∀ c ∈ w, p c) :
    List.dropWhile p (w ++ l) = List.dropWhile p l := by
  induction w with
  | nil => rfl
  | cons a t ih =>
      rw [List.cons_append, List.dropWhile_cons,
        if_pos (h a (List.mem_cons_self a t))]
      exact ih (fun c hc => h c (List.mem_cons_of_mem _ hc))

/-- `pyStripL` ignores whitespace padding on either side. -/
theorem pyStripL_pad (w1 w2 l : List Char)
    (h1 : ∀ c ∈ w1, c.isWhitespace) (h2 : ∀ c ∈ w2, c.isWhitespace) :
    pyStripL (w1 ++ l ++ w2) = pyStripL l := by
  unfold pyStripL
  rw [List.append_assoc, dropWhile_append_of_forall w1 _ h1,
    List.dropWhile_append]
  by_cases hd : (List.dropWhile Char.isWhitespace l).isEmpty
  · rw [if_pos hd]
    rw [List.dropWhile_eq_nil_iff.mpr h2, List.isEmpty_iff.mp hd]
  · rw [if_neg hd, List.reverse_append,
      dropWhile_append_of_forall w2.reverse _
        (fun c hc => h2 c (List.mem_reverse.mp hc))]

/-- `pyStrip` ignores whitespace padding on either side. -/
theorem pyStrip_pad (w1 w2 s : String)
    (h1 : ∀ c ∈ w1.data, c.isWhitespace) (h2 : ∀ c ∈ w2.data, c.isWhitespace) :
    pyStrip (w1 ++ s ++ w2) = pyStrip s := by
  unfold pyStrip
  congr 1
  rw [String.data_append, String.data_append]
  exact pyStripL_pad _ _ _ h1 h2

/-- Every keyword kept by the deduplication pass avoids the seen set. -/
theorem dedupKeywordRows_not_seen (l : List (String × String))
    (seen : List String) :
    ∀ p ∈ dedupKeywordRows seen l, p.2 ∉ seen := by
  induction l generalizing seen with
  | nil => simp [dedupKeywordRows]
  | cons q rest ih =>
      intro p hp
      by_cases hq : q.2 ∈ seen
      · rw [dedupKeywordRows, if_pos hq] at hp
        exact ih seen p hp
      · rw [dedupKeywordRows, if_neg hq] at hp
        rcases List.mem_cons.mp hp with hpq | hp'
        · rw [hpq]; exact hq
        · intro hmem
          exact ih (q.2 :: seen) p hp' (List.mem_cons_of_mem _ hmem)

/-- Keywords already seen never reappear in the deduplicated list. -/
theorem countP_dedupKeywordRows_seen (l : List (String × String))
    (seen : List String) (k : String) (hk : k ∈ seen) :
    (dedupKeywordRows seen l).countP (fun p => p.2 == k) = 0 := by
  rw [List.countP_eq_zero]
  intro p hp
  simp only [beq_iff_eq]
  intro hpk
  exact dedupKeywordRows_not_seen l seen p hp (hpk ▸ hk)

/-- Exact multiplicity after deduplication: one when the keyword occurs,
zero otherwise. -/
theorem countP_dedupKeywordRows (l : List (String × String))
    (seen : List String) (k : String) (hk : k ∉ seen) :
    (dedupKeywordRows seen l).countP (fun p => p.2 == k)
      = if l.any (fun p => p.2 == k) then 1 else 0 := by
  induction l generalizing seen with
  | nil => simp [dedupKeywordRows]
  | cons q rest ih =>
      by_cases hq : q.2 ∈ seen
      · have hqk : (q.2 == k) = false := by
          simp only [beq_eq_false_iff_ne, ne_eq]
          intro hqk2
          exact hk (hqk2 ▸ hq)
        rw [dedupKeywordRows, if_pos hq, List.any_cons, hqk, Bool.false_or]
        exact ih seen hk
      · rw [dedupKeywordRows, if_neg hq, List.countP_cons, List.any_cons]
        by_cases hqk : q.2 = k
        · rw [if_pos (by simpa using hqk)]
          have : (q.2 == k) = true := by simpa using hqk
          rw [this, Bool.true_or, if_pos rfl,
            countP_dedupKeywordRows_seen rest (q.2 :: seen) k
              (hqk ▸ List.mem_cons_self q.2 seen)]
        · rw [if_neg (by simpa using hqk)]
          have : (q.2 == k) = false := by simpa using hqk
          rw [this, Bool.false_or, Nat.add_zero]
          exact ih (q.2 :: seen) (by
            intro hmem
            rcases List.mem_cons.mp hmem with h' | h'
            · exact hqk h'.symm
            · exact hk h')

/-- The keywords kept by the deduplication pass are pairwise distinct. -/
theorem dedupKeywordRows_nodup (l : List (String × String))
    (seen : List String) :
    ((dedupKeywordRows seen l).map Prod.snd).Nodup := by
  induction l generalizing seen with
  | nil => simp [dedupKeywordRows]
  | cons q rest ih =>
      by_cases hq : q.2 ∈ seen
      · rw [dedupKeywordRows, if_pos hq]
        exact ih seen
      · rw [dedupKeywordRows, if_neg hq, List.map_cons]
        refine List.nodup_cons.mpr ⟨?_, ih (q.2 :: seen)⟩
        intro hmem
        obtain ⟨p, hp, hpq⟩ := List.mem_map.mp hmem
        exact dedupKeywordRows_not_seen rest (q.2 :: seen) p hp
          (hpq ▸ List.mem_cons_self q.2 seen)

/-! ## Shared concrete sample data (used by witnesses/counterexamples) -/

/-- A one-column, two-row eco-score table. -/
def ecoW : EcoTable := ⟨[true], [["denim"], ["cotton"]]⟩

/-- A one-record trend cache. -/
def d2 : List TrendRecord := [⟨"denim", "2024-01-05", 10, "clothing"⟩]

/-- The enrichment of the record of `d2`. -/
def e0 : EnrichedRecord := ⟨"denim", "2024-01-05", 10, "clothing", none, "Generic"⟩

/-- A cache record for the keyword `denim`. -/
def r8a : TrendRecord := ⟨"denim", "2024-01-05", 10, "clothing"⟩

/-- A second, distinct cache record for the same keyword `denim`. -/
def r8b : TrendRecord := ⟨"denim", "2024-01-12", 20, "clothing"⟩

/-- A cache record for a keyword absent from `[r8a]`. -/
def rW : TrendRecord := ⟨"linen", "2024-01-05", 30, "fabric"⟩

/-- A provider oracle that raises for `denim` and answers otherwise. -/
def oracleW : String → Except String (List RawPoint) :=
  fun k => if k == "denim" then Except.error "boom"
    else Except.ok [⟨"2024-01-01", 10⟩]

/-! ## Claim theorems -/

/-- Claim C1: for every keyword and eco-score table, the matcher returns
exactly the rows with some text-typed column case-insensitively equal to
the normalised keyword, all tagged `"exact"` and in table order; only
when no such row exists does it return exactly the rows with some
text-typed column containing the keyword, all tagged `"contains"` and in
table order; otherwise the result is empty.  A result never mixes the
two tiers. -/
theorem find_ecoscore_rows_two_tier (eco : EcoTable) (keyword : String) :
    (eco.rows.filter
        (fun r => rowExact eco.isText r (pyLower (pyStrip keyword))) ≠ [] →
      find_ecoscore_rows eco keyword =
        (eco.rows.filter
          (fun r => rowExact eco.isText r (pyLower (pyStrip keyword)))).map
            (fun r => (r, "exact")))
    ∧ (eco.rows.filter
        (fun r => rowExact eco.isText r (pyLower (pyStrip keyword))) = [] →
       eco.rows.filter
        (fun r => rowContains eco.isText r (pyLower (pyStrip keyword))) ≠ [] →
      find_ecoscore_rows eco keyword =
        (eco.rows.filter
          (fun r => rowContains eco.isText r (pyLower (pyStrip keyword)))).map
            (fun r => (r, "contains")))
    ∧ (eco.rows.filter
        (fun r => rowExact eco.isText r (pyLower (pyStrip keyword))) = [] →
       eco.rows.filter
        (fun r => rowContains eco.isText r (pyLower (pyStrip keyword))) = [] →
      find_ecoscore_rows eco keyword = [])
    ∧ (∀ p ∈ find_ecoscore_rows eco keyword,
       ∀ q ∈ find_ecoscore_rows eco keyword, p.2 = q.2) := by
  by_cases hT : eco.isText.any id
  · by_cases hE : (eco.rows.filter
        (fun r => rowExact eco.isText r (pyLower (pyStrip keyword)))).isEmpty
    · have hE' := List.isEmpty_iff.mp hE
      by_cases hC : (eco.rows.filter
          (fun r => rowContains eco.isText r (pyLower (pyStrip keyword)))).isEmpty
      · have hC' := List.isEmpty_iff.mp hC
        have hF : find_ecoscore_rows eco keyword = [] := by
          simp only [find_ecoscore_rows, hT, hE, hC]
          rfl
        refine ⟨fun h => absurd hE' h, fun _ h => absurd hC' h,
          fun _ _ => hF, ?_⟩
        intro p hp
        rw [hF] at hp
        exact absurd hp (by simp)
      · have hF : find_ecoscore_rows eco keyword =
            (eco.rows.filter
              (fun r => rowContains eco.isText r (pyLower (pyStrip keyword)))).map
                (fun r => (r, "contains")) := by
          simp only [find_ecoscore_rows, hT, hE]
          rw [if_neg (by simp), if_neg (by simp), if_pos (by simpa using hC)]
        refine ⟨fun h => absurd hE' h, fun _ _ => hF,
          fun _ hC2 => absurd hC2 (fun h => hC (by rw [h]; rfl)), ?_⟩
        intro p hp q hq
        rw [hF] at hp hq
        obtain ⟨rp, -, hrp⟩ := List.mem_map.mp hp
        obtain ⟨rq, -, hrq⟩ := List.mem_map.mp hq
        rw [← hrp, ← hrq]
    · have hE' : eco.rows.filter
          (fun r => rowExact eco.isText r (pyLower (pyStrip keyword))) ≠ [] :=
        fun h => hE (by rw [h]; rfl)
      have hF : find_ecoscore_rows eco keyword =
          (eco.rows.filter
            (fun r => rowExact eco.isText r (pyLower (pyStrip keyword)))).map
              (fun r => (r, "exact")) := by
        simp only [find_ecoscore_rows]
        rw [if_neg (by simp [hT]), if_pos (by simpa using hE)]
      refine ⟨fun _ => hF, fun h => absurd h hE', fun h => absurd h hE', ?_⟩
      intro p hp q hq
      rw [hF] at hp hq
      obtain ⟨rp, -, hrp⟩ := List.mem_map.mp hp
      obtain ⟨rq, -, hrq⟩ := List.mem_map.mp hq
      rw [← hrp, ← hrq]
  · have hT' : eco.isText.any id = false := by simpa using hT
    have hE : eco.rows.filter
        (fun r => rowExact eco.isText r (pyLower (pyStrip keyword))) = [] := by
      rw [List.filter_eq_nil_iff]
      intro r _
      have hre : rowExact eco.isText r (pyLower (pyStrip keyword)) = false := by
        unfold rowExact
        exact zipAny_false_of_noText eco.isText r
          (fun c => cellExact c (pyLower (pyStrip keyword))) hT'
      simp [hre]
    have hC : eco.rows.filter
        (fun r => rowContains eco.isText r (pyLower (pyStrip keyword))) = [] := by
      rw [List.filter_eq_nil_iff]
      intro r _
      have hrc : rowContains eco.isText r (pyLower (pyStrip keyword)) = false := by
        unfold rowContains
        exact zipAny_false_of_noText eco.isText r
          (fun c => cellContains c (pyLower (pyStrip keyword))) hT'
      simp [hrc]
    have hF : find_ecoscore_rows eco keyword = [] := by
      simp only [find_ecoscore_rows]
      rw [if_pos (by simp [hT'])]
    refine ⟨fun h => absurd hE h, fun _ h => absurd hC h, fun _ _ => hF, ?_⟩
    intro p hp
    rw [hF] at hp
    exact absurd hp (by simp)

/-- Witness for C1: on a concrete table, `" Denim "` exact-matches the
`denim` row (tier 1 fires, tagged `"exact"`). -/
theorem find_ecoscore_rows_two_tier_witness :
    find_ecoscore_rows ecoW " Denim " = [(["denim"], "exact")] :=
  ((find_ecoscore_rows_two_tier ecoW " Denim ").1 (by decide)).trans (by decide)

/-- Claim C2: matching is case-insensitive and whitespace-trimmed on
both sides.  Padding the keyword with whitespace never changes the
matcher's result; padding a table cell with whitespace never changes its
exact or contains match status once the cell has passed the loader's
strip (`load_ecoscores_normalize` applies `pyStrip` to text cells); and
a cell is an exact hit precisely when its stripped, lower-cased text
equals the stripped, lower-cased keyword. -/
theorem matcher_trim_insensitive :
    (∀ (eco : EcoTable) (kw w1 w2 : String),
        (∀ c ∈ w1.data, c.isWhitespace) → (∀ c ∈ w2.data, c.isWhitespace) →
        find_ecoscore_rows eco (w1 ++ kw ++ w2) = find_ecoscore_rows eco kw)
    ∧ (∀ (cell kw w1 w2 : String),
        (∀ c ∈ w1.data, c.isWhitespace) → (∀ c ∈ w2.data, c.isWhitespace) →
        cellExact (pyStrip (w1 ++ cell ++ w2)) (pyLower (pyStrip kw))
            = cellExact (pyStrip cell) (pyLower (pyStrip kw))
        ∧ cellContains (pyStrip (w1 ++ cell ++ w2)) (pyLower (pyStrip kw))
            = cellContains (pyStrip cell) (pyLower (pyStrip kw)))
    ∧ (∀ cell kw : String,
        cellExact (pyStrip cell) (pyLower (pyStrip kw))
            = (pyLower (pyStrip cell) == pyLower (pyStrip kw)))
    ∧ (∀ eco : EcoTable, (load_ecoscores_normalize eco).rows
        = eco.rows.map (fun r =>
            List.zipWith (fun b c => if b then pyStrip c else c) eco.isText r)) := by
  refine ⟨?_, ?_, fun _ _ => rfl, fun _ => rfl⟩
  · intro eco kw w1 w2 h1 h2
    simp only [find_ecoscore_rows]
    rw [pyStrip_pad w1 w2 kw h1 h2]
  · intro cell kw w1 w2 h1 h2
    rw [pyStrip_pad w1 w2 cell h1 h2]
    exact ⟨rfl, rfl⟩

/-- Witness for C2: padding the keyword `denim` with spaces does not
change the matcher's result on a concrete table. -/
theorem matcher_trim_insensitive_witness :
    find_ecoscore_rows ecoW (" " ++ "denim" ++ " ")
      = find_ecoscore_rows ecoW "denim" :=
  matcher_trim_insensitive.1 ecoW "denim" " " " " (by decide) (by decide)

/-- Counterexample for C3 as stated: two rows that share the same
trimmed keyword (a whitespace-only cell, trimming to the empty string)
and differ only in category are both dropped by the blank filter, so
the loaded table contains zero rows for that keyword, not exactly
one. -/
theorem load_keywords_unique_cex :
    pyStrip (" ", " ").2 = pyStrip ("a", " ").2
    ∧ (load_keywords [("a", " "), ("b", " ")]).countP
        (fun p => p.2 == pyStrip " ") ≠ 1 := by
  decide

/-- Claim C3 (amended: the shared trimmed keyword must be non-empty,
since blank keywords are filtered out): after load, keyword values are
unique across the table, and any non-empty trimmed keyword occurring in
the input has exactly one row in the loaded table — in particular two
input rows sharing it and differing only in category yield one row. -/
theorem load_keywords_unique (rows : List (String × String)) (k : String) :
    ((load_keywords rows).map Prod.snd).Nodup
    ∧ (k ≠ "" → (∃ p ∈ rows, pyStrip p.2 = k) →
        (load_keywords rows).countP (fun p => p.2 == k) = 1) := by
  constructor
  · exact dedupKeywordRows_nodup _ []
  · intro hk ⟨p, hp, hstrip⟩
    rw [load_keywords, countP_dedupKeywordRows _ [] k (by simp)]
    rw [if_pos ?_]
    rw [List.any_eq_true]
    refine ⟨(p.1, pyStrip p.2), ?_, by simpa using hstrip⟩
    rw [List.mem_filter]
    refine ⟨List.mem_map.mpr ⟨p, hp, rfl⟩, ?_⟩
    simp only [Bool.not_eq_eq_eq_not, Bool.not_true, beq_eq_false_iff_ne, ne_eq]
    rw [hstrip]
    exact hk

/-- Witness for C3: a keyword appearing twice (once padded) loads to
exactly one row. -/
theorem load_keywords_unique_witness :
    (load_keywords [("a", "denim"), ("b", " denim ")]).countP
      (fun p => p.2 == "denim") = 1 :=
  (load_keywords_unique [("a", "denim"), ("b", " denim ")] "denim").2
    (by decide) ⟨("a", "denim"), by decide, by decide⟩

/-- Claim C4: the trend direction classifier compares the delta between
the last and first scores against the fixed threshold 5; in particular
`[10, 20]` is `"up"`, `[20, 10]` is `"down"` and `[20, 23]` is
`"stable"`. -/
theorem calculate_trend_direction_spec :
    calculate_trend_direction [10, 20] = "up"
    ∧ calculate_trend_direction [20, 10] = "down"
    ∧ calculate_trend_direction [20, 23] = "stable"
    ∧ ∀ scores : List ℚ, 2 ≤ scores.length →
        calculate_trend_direction scores =
          (if scores.getLast?.getD 0 - scores.head?.getD 0 > 5 then "up"
           else if scores.getLast?.getD 0 - scores.head?.getD 0 < -5 then "down"
           else "stable") := by
  refine ⟨by norm_num [calculate_trend_direction],
    by norm_num [calculate_trend_direction],
    by norm_num [calculate_trend_direction], ?_⟩
  intro scores h2
  rw [calculate_trend_direction, if_neg (by omega)]

/-- Witness for C4: the general form applied at `[0, 100]`. -/
theorem calculate_trend_direction_spec_witness :
    calculate_trend_direction [0, 100] = "up" := by
  rw [calculate_trend_direction_spec.2.2.2 [0, 100] (by norm_num)]
  norm_num

/-- Claim C5: `GET /trends` responds 404 exactly when no cached record
has a keyword case-insensitively equal to the query keyword; when some
record matches, all matching records are returned (enriched) and no
error is raised. -/
theorem get_trends_404_iff (d : List TrendRecord) (kw : String)
    (brand : Option String) :
    (get_trends d kw brand = Except.error 404 ↔
      ∀ t ∈ d, pyLower t.keyword ≠ pyLower kw)
    ∧ ((∃ t ∈ d, pyLower t.keyword = pyLower kw) →
        get_trends d kw brand = Except.ok
          ((d.filter (fun t => pyLower t.keyword == pyLower kw)).map (fun r =>
            { keyword := r.keyword, date := r.date,
              trend_score := r.trend_score, category := r.category,
              eco_score := get_eco_score kw,
              brand := brandOrGeneric brand }))) := by
  by_cases hF : (d.filter (fun t => pyLower t.keyword == pyLower kw)).isEmpty
  · have hF' := List.isEmpty_iff.mp hF
    have hferr : get_trends d kw brand = Except.error 404 := by
      simp only [get_trends]
      rw [if_pos hF]
    have hnone : ∀ t ∈ d, pyLower t.keyword ≠ pyLower kw := by
      intro t ht
      have := List.filter_eq_nil_iff.mp hF' t ht
      simpa using this
    refine ⟨⟨fun _ => hnone, fun _ => hferr⟩, ?_⟩
    rintro ⟨t, ht, heq⟩
    exact absurd heq (hnone t ht)
  · have hfok : get_trends d kw brand = Except.ok
        ((d.filter (fun t => pyLower t.keyword == pyLower kw)).map (fun r =>
          { keyword := r.keyword, date := r.date,
            trend_score := r.trend_score, category := r.category,
            eco_score := get_eco_score kw,
            brand := brandOrGeneric brand })) := by
      simp only [get_trends]
      rw [if_neg (by simpa using hF)]
    refine ⟨⟨fun herr => ?_, fun hall => ?_⟩, fun _ => hfok⟩
    · rw [hfok] at herr
      exact Except.noConfusion herr
    · refine absurd (List.filter_eq_nil_iff.mpr ?_) (fun h => hF (by rw [h]; rfl))
      intro t ht
      simpa using hall t ht

/-- Witness for C5: on a concrete cache, the case-insensitive query
`DENIM` returns the matching record enriched with a null eco-score. -/
theorem get_trends_404_iff_witness :
    get_trends d2 "DENIM" none = Except.ok [e0] :=
  ((get_trends_404_iff d2 "DENIM" none).2
    ⟨⟨"denim", "2024-01-05", 10, "clothing"⟩, by decide, by decide⟩).trans rfl

/-- The brand field projected away, for comparing `/trends` responses
across brand parameters. -/
def eraseBrand (r : EnrichedRecord) : EnrichedRecord :=
  { r with brand := "" }

/-- Claim C6: every record of a successful `GET /trends` response has a
null `eco_score`, and the brand parameter does not filter: any two brand
values give the same records, identical in every field except the brand
field. -/
theorem get_trends_eco_null_brand_unused (d : List TrendRecord) (kw : String)
    (b1 b2 : Option String) :
    (∀ l, get_trends d kw b1 = Except.ok l → ∀ r ∈ l, r.eco_score = none)
    ∧ Except.map (fun l => l.map eraseBrand) (get_trends d kw b1)
        = Except.map (fun l => l.map eraseBrand) (get_trends d kw b2) := by
  by_cases hF : (d.filter (fun t => pyLower t.keyword == pyLower kw)).isEmpty
  · constructor
    · intro l hl
      simp only [get_trends] at hl
      rw [if_pos hF] at hl
      exact Except.noConfusion hl
    · simp only [get_trends]
      rw [if_pos hF, if_pos hF]
  · constructor
    · intro l hl
      simp only [get_trends] at hl
      rw [if_neg (by simpa using hF)] at hl
      have hl2 := Except.ok.inj hl
      intro r hr
      rw [← hl2] at hr
      obtain ⟨x, -, hx⟩ := List.mem_map.mp hr
      rw [← hx]
      rfl
    · simp only [get_trends]
      rw [if_neg (by simpa using hF), if_neg (by simpa using hF)]
      simp only [Except.map, List.map_map]
      rfl

/-- Witness for C6: the concrete response record of `d2` has a null
eco-score. -/
theorem get_trends_eco_null_brand_unused_witness : e0.eco_score = none :=
  (get_trends_eco_null_brand_unused d2 "denim" none (some "Patagonia")).1
    [e0] rfl e0 (List.mem_singleton.mpr rfl)

/-- Claim C7: for every keyword appearing in the `GET /trends/summary`
response, the metric objects for the three hardcoded brands are
identical — the brand association list is either empty or assigns one
and the same metrics object to Patagonia, Everlane and Reformation. -/
theorem summary_brands_identical (d : List TrendRecord)
    (p : String × List (String × BrandMetrics))
    (hp : p ∈ get_trends_summary d) :
    p.2 = [] ∨ ∃ m, p.2 = [("Patagonia", m), ("Everlane", m), ("Reformation", m)] := by
  simp only [get_trends_summary] at hp
  obtain ⟨kw, hkw, hEq⟩ := List.mem_map.mp hp
  by_cases h : (d.filter (fun t => t.keyword == kw)).isEmpty
  · left
    rw [← hEq]
    simp only [h, if_true]
  · right
    refine ⟨computeBrandMetrics (d.filter (fun t => t.keyword == kw))
      ((get_eco_score kw).getD 5), ?_⟩
    rw [← hEq]
    simp only [h, if_false]
    rfl

/-- Witness for C7: the summary of the concrete cache `d2` contains the
`denim` entry, whose brand list repeats one metrics object three
times. -/
theorem summary_brands_identical_witness :
    (("denim", BRANDS.map (fun b =>
        (b, computeBrandMetrics (d2.filter (fun t => t.keyword == "denim")) 5))) :
      String × List (String × BrandMetrics)).2 = []
    ∨ ∃ m, (("denim", BRANDS.map (fun b =>
        (b, computeBrandMetrics (d2.filter (fun t => t.keyword == "denim")) 5))) :
      String × List (String × BrandMetrics)).2
        = [("Patagonia", m), ("Everlane", m), ("Reformation", m)] :=
  summary_brands_identical d2 _
    (List.mem_map.mpr ⟨"denim", List.mem_mergeSort.mpr (by decide), rfl⟩)

/-- Counterexample for C8 as stated: appending a genuinely new record
(`r8b ∉ [r8a]`) whose keyword already occurs leaves the reload
keyword-count unchanged, so the count is not one greater. -/
theorem reload_keywords_count_cex :
    r8b ∉ [r8a]
    ∧ (reload_data (some ([r8a] ++ [r8b])) [r8a]).2.keywords_count
        ≠ (get_unique_keywords [r8a]).length + 1 := by
  constructor
  · intro hmem
    have : r8b = r8a := List.mem_singleton.mp hmem
    simp [r8a, r8b] at this
  · simp only [reload_data, load_data, get_unique_keywords, ne_eq]
    rw [List.length_mergeSort, List.length_mergeSort]
    decide

/-- Claim C8 (amended: the appended record's keyword must not already be
in the cache): appending a record with a fresh keyword and reloading
reports a keyword count exactly one greater than before. -/
theorem reload_keywords_count_fresh (d : List TrendRecord) (r : TrendRecord)
    (h : r.keyword ∉ d.map (fun t => t.keyword)) :
    (reload_data (some (d ++ [r])) d).2.keywords_count
      = (get_unique_keywords d).length + 1 := by
  simp only [reload_data, load_data, get_unique_keywords]
  rw [List.length_mergeSort, List.length_mergeSort,
    ← List.card_toFinset, ← List.card_toFinset, List.map_append,
    List.toFinset_append]
  simp only [List.map_cons, List.map_nil, List.toFinset_cons, List.toFinset_nil]
  rw [Finset.union_comm, insert_emptyc_eq, ← Finset.insert_eq,
    Finset.card_insert_of_not_mem (by simpa using h)]

/-- Witness for C8: adding a `linen` record to a `denim`-only cache
raises the keyword count from 1 to 2. -/
theorem reload_keywords_count_fresh_witness :
    (reload_data (some ([r8a] ++ [rW])) [r8a]).2.keywords_count
      = (get_unique_keywords [r8a]).length + 1 :=
  reload_keywords_count_fresh [r8a] rW (by decide)

/-- Counterexample for C9 as stated: in the single-keyword dashboard
path (`app.py`), a provider failure is not caught — the exception
propagates to the caller instead of yielding any (ok) result. -/
theorem pull_app_failure_cex :
    pull_interest_over_time_app (Except.error "timeout") "denim"
      = Except.error "timeout"
    ∧ ¬ ∃ pts, pull_interest_over_time_app (Except.error "timeout") "denim"
        = Except.ok pts := by
  refine ⟨rfl, ?_⟩
  rintro ⟨pts, h⟩
  exact Except.noConfusion h

/-- Claim C9 (amended: in the dashboard path only an empty provider
response is handled; an exception propagates uncaught): neither fetcher
retries — each consumes the provider's single response.  In the batch
script an exception or an empty response yields an empty result set and
the keyword loop proceeds to the next keyword unchanged; in the
dashboard path an empty response yields an empty ok result while an
exception propagates. -/
theorem trend_fetcher_failure_handling :
    (∀ (e kw : String), pull_interest_over_time_batch (Except.error e) kw = [])
    ∧ (∀ kw : String, pull_interest_over_time_batch (Except.ok []) kw = [])
    ∧ (∀ (oracle : String → Except String (List RawPoint))
        (category kw : String) (rest : List (String × String)) (e : String),
        oracle kw = Except.error e →
        batch_main oracle ((category, kw) :: rest) = batch_main oracle rest)
    ∧ (∀ (e kw : String),
        pull_interest_over_time_app (Except.error e) kw = Except.error e)
    ∧ (∀ kw : String,
        pull_interest_over_time_app (Except.ok []) kw = Except.ok []) := by
  refine ⟨fun _ _ => rfl, fun _ => rfl, ?_, fun _ _ => rfl, fun _ => rfl⟩
  intro oracle category kw rest e he
  rw [batch_main, he]
  rfl

/-- Witness for C9: with a concrete oracle that raises for `denim`, the
batch loop over `denim` then `linen` produces the same records as the
loop over `linen` alone. -/
theorem trend_fetcher_failure_handling_witness :
    batch_main oracleW [("c", "denim"), ("f", "linen")]
      = batch_main oracleW [("f", "linen")] :=
  trend_fetcher_failure_handling.2.2.1 oracleW "c" "denim"
    [("f", "linen")] "boom" rfl

/-- Claim C10: when the cache file is absent, `POST /reload` leaves the
in-memory table unchanged (every previously loaded record is still
served) and still responds with status `"success"` and the counts of
the old data. -/
theorem reload_missing_file (trends_data : List TrendRecord) :
    (reload_data none trends_data).1 = trends_data
    ∧ (∀ kw brand, get_trends (reload_data none trends_data).1 kw brand
        = get_trends trends_data kw brand)
    ∧ (reload_data none trends_data).2.status = "success"
    ∧ (reload_data none trends_data).2.trends_count = trends_data.length
    ∧ (reload_data none trends_data).2.keywords_count
        = (get_unique_keywords trends_data).length :=
  ⟨rfl, fun _ _ => rfl, rfl, rfl, rfl⟩

end FashionProject
